import Mathlib

/-!
Shallow embedding of the Darwin AI backend (an empathetic code-review
service built around a small RAG pipeline), translated from `src/main.py`
and `src/app.py`.  External collaborators (the Gemini embedding/generation
API, `json.loads`, CPython set iteration order) are modelled as abstract
function parameters bundled in `Env`; everything written in the repository
itself is translated statement by statement.

Numeric vectors use `ℚ` in place of IEEE floats: the claims under study
(list lengths, threshold filtering, index bounds, report structure) do not
depend on floating-point rounding.
-/

set_option maxHeartbeats 1000000

/-- Apostrophe character as a string, to splice into the literal prompt and
fallback texts that contain one. -/
def apos : String := (Char.ofNat 39).toString

/-- Whitespace set of Python `str.strip()` (space, tab, newline, carriage
return, vertical tab, form feed). -/
def pyIsSpace (c : Char) : Bool :=
  c = ' ' || c = (Char.ofNat 9) || c = (Char.ofNat 10) || c = (Char.ofNat 13) ||
  c = (Char.ofNat 11) || c = (Char.ofNat 12)

/-- Python `str.strip()`: drop leading and trailing whitespace. -/
def pyStrip (s : String) : String :=
  String.mk (((s.data.dropWhile pyIsSpace).reverse.dropWhile pyIsSpace).reverse)

/-- Python `str.lower()` (ASCII case folding, as used on the ASCII keyword
lists of the severity classifier and the fallback parser). -/
def strLower (s : String) : String :=
  String.mk (s.data.map Char.toLower)

/-- Helper for substring search: does `needle` occur at the head of `hay`? -/
def isPreOf : List Char → List Char → Bool
  | [], _ => true
  | _ :: _, [] => false
  | c :: cs, d :: ds => c = d && isPreOf cs ds

/-- Python `needle in hay` on lists of characters: `needle` occurs
contiguously somewhere in `hay`. -/
def subOf (needle : List Char) : List Char → Bool
  | [] => needle.isEmpty
  | d :: ds => isPreOf needle (d :: ds) || subOf needle ds

/-- Python `needle in hay` on strings. -/
def strIn (needle hay : String) : Bool := subOf needle.data hay.data

/-- Python `hay.startswith(needle)`. -/
def strStartsWith (needle hay : String) : Bool := isPreOf needle.data hay.data

/-- Python `text.split(chr(10))` on the character level. -/
def splitNl : List Char → List (List Char)
  | [] => [[]]
  | c :: cs =>
    if c = (Char.ofNat 10) then [] :: splitNl cs
    else
      match splitNl cs with
      | [] => [[c]]
      | l :: ls => (c :: l) :: ls

/-- Python `text.split(chr(10))` on strings. -/
def pySplitLines (s : String) : List String := (splitNl s.data).map String.mk

/-- Concatenation of a list of strings (the repeated `+=` of the report
assembly loop, written as one pass). -/
def strConcat : List String → String
  | [] => ""
  | s :: rest => s ++ strConcat rest

/-- Python list indexing `l[i]` for an `int` index: non-negative indices
count from the front, negative indices from the back, anything out of range
raises `IndexError` (modelled as `none`). -/
def pyListGet (l : List α) (i : Int) : Option α :=
  if 0 ≤ i then l[i.toNat]?
  else if -(l.length : Int) ≤ i then l[((l.length : Int) + i).toNat]?
  else none

/-! ### Data model (src/main.py) -/

/-- The `KnowledgeItem` dataclass of `src/main.py`. -/
structure KnowledgeItem where
  content : String
  category : String
  resource_link : String
  embedding : List ℚ
deriving DecidableEq

/-- The structured per-comment result dict: four text fields plus
deduplicated resource links (the FeedbackResult record of the spec). -/
structure Feedback where
  positive_rephrasing : String
  the_why : String
  suggested_improvement : String
  code_example : String
  resource_links : List String
deriving DecidableEq

/-- Counts provider invocations made while serving a request: `nEmbed` for
`genai.embed_content`, `nGenerate` for `model.generate_content`.  Threaded
through the pipeline so that claims about which calls happen are statable. -/
structure Trace where
  nEmbed : Nat
  nGenerate : Nat
deriving DecidableEq

def bumpEmbed (t : Trace) : Trace := { t with nEmbed := t.nEmbed + 1 }

def bumpGen (t : Trace) : Trace := { t with nGenerate := t.nGenerate + 1 }

/-- External collaborators, fixed for the lifetime of a process:
`embed` models `genai.embed_content` (`none` = the call raised),
`generate` models `model.generate_content` (`none` = the call raised),
`parseJSON` models `json.loads` on the stripped response text (`none` =
`json.JSONDecodeError`; missing keys in a successfully parsed object are
modelled as empty fields), and `dedup` models `list(set(links))`, whose
iteration order CPython fixes per process. -/
structure Env where
  embed : String → Option (List ℚ)
  generate : String → Option String
  parseJSON : String → Option Feedback
  dedup : List String → List String

/-- Embedding dimension `self.dimension = 768` of `EmpathyRAGSystem`. -/
def dimension : Nat := 768

/-- Model of `EmpathyRAGSystem._get_embedding`: call the provider; on an exception,
print and fall back to the zero vector of dimension 768. -/
def getEmbeddingPure (env : Env) (text : String) : List ℚ :=
  match env.embed text with
  | some v => v
  | none => List.replicate dimension 0

/-- State of `EmpathyRAGSystem`: the FAISS `IndexFlatIP` contents and the
aligned `knowledge_base` list. -/
structure RAGState where
  index : List (List ℚ)
  knowledge_base : List KnowledgeItem

/-- The static catalog of `_initialize_knowledge_base`:
(content, category, resource_link) triples, verbatim from the source. -/
def knowledgeCatalog : List (String × String × String) :=
  [("List comprehensions in Python are more efficient than traditional for loops with append operations because they are optimized at the C level and don" ++ apos ++ "t require multiple function calls.",
    "performance",
    "https://docs.python.org/3/tutorial/datastructures.html#list-comprehensions"),
   ("Meaningful variable names improve code readability and maintainability. Single-letter variables should be avoided except for short loops or mathematical contexts.",
    "readability",
    "https://pep8.org/#naming-conventions"),
   ("Comparing boolean values with == True or == False is redundant in Python. The truthiness of the value can be evaluated directly.",
    "pythonic",
    "https://pep8.org/#programming-recommendations"),
   ("Code reviews should focus on improvement rather than criticism. Constructive feedback helps team members learn and grow.",
    "team_dynamics",
    "https://google.github.io/eng-practices/review/reviewer/comments.html"),
   ("Performance optimizations should be considered when dealing with large datasets. Algorithm complexity matters for scalability.",
    "performance",
    "https://wiki.python.org/moin/PythonSpeed/PerformanceTips"),
   ("Filter operations in functional programming can be combined with map operations for cleaner, more readable code.",
    "functional_programming",
    "https://docs.python.org/3/howto/functional.html")]

/-- Model of `EmpathyRAGSystem._initialize_knowledge_base`: embed each catalog entry
once and append it to `knowledge_base`.  In the source the statement that
would add the embedding to the FAISS index sits inside the comment on line
87 of `src/main.py` (`# Add to FAISS index self.index.add(...)`), so the
index field is never touched and stays empty. -/
def initializeKnowledgeBase (env : Env) : RAGState :=
  knowledgeCatalog.foldl
    (fun st item =>
      let embedding := getEmbeddingPure env item.1
      let ki : KnowledgeItem :=
        { content := item.1, category := item.2.1,
          resource_link := item.2.2, embedding := embedding }
      { st with knowledge_base := st.knowledge_base ++ [ki] })
    { index := [], knowledge_base := [] }

/-! ### Vector search (faiss.IndexFlatIP) and the Retriever -/

/-- Inner product of two vectors (`IndexFlatIP` similarity). -/
def innerProduct (u v : List ℚ) : ℚ := (List.zipWith (· * ·) u v).sum

/-- Score FAISS reports for padding entries when fewer than `k` results
exist; the numeral is `-FLT_MAX` (that is, `-(2^128 - 2^104)`), paired with
the sentinel label `-1`.  Written with `mkRat` so the kernel can evaluate
comparisons against it. -/
def noResultScore : ℚ := mkRat (-340282346638528859811704183484516925440) 1

/-- The similarity threshold `0.1` of `retrieve_relevant_knowledge`,
written with `mkRat` so the kernel can evaluate comparisons against it;
`simThreshold_eq_tenth` below identifies it with `1 / 10`. -/
def simThreshold : ℚ := mkRat 1 10

/-- Stable descending insertion: an element is placed before the first
stored element whose score is not above it, so equal scores keep insertion
order (earliest index first), matching FAISS tie-breaking. -/
def insertDesc (p : ℚ × Int) : List (ℚ × Int) → List (ℚ × Int)
  | [] => [p]
  | q :: qs => if q.1 ≤ p.1 then p :: q :: qs else q :: insertDesc p qs

/-- Sort (score, label) pairs by descending score, stably. -/
def sortDesc (l : List (ℚ × Int)) : List (ℚ × Int) := l.foldr insertDesc []

/-- Model of `faiss.IndexFlatIP.search` for a single query: exact inner-product
scores for every stored vector, ranked descending, truncated to `k`, and
padded with `(noResultScore, -1)` entries so exactly `k` pairs return. -/
def searchIndex (vecs : List (List ℚ)) (q : List ℚ) (k : Nat) : List (ℚ × Int) :=
  let scored := vecs.enum.map (fun p => (innerProduct q p.2, (p.1 : Int)))
  let ranked := (sortDesc scored).take k
  ranked ++ List.replicate (k - ranked.length) (noResultScore, -1)

/-- The result-collection loop of `retrieve_relevant_knowledge`
(src/main.py:110-114): keep each hit whose label passes `idx < len(kb)` and
whose score exceeds `0.1`, reading the item with Python list indexing
(`none` = an uncaught `IndexError`). -/
def relevantItems (kb : List KnowledgeItem) : List (ℚ × Int) → Option (List KnowledgeItem)
  | [] => some []
  | (s, idx) :: rest =>
    if idx < (kb.length : Int) ∧ simThreshold < s then
      match pyListGet kb idx with
      | some item => (relevantItems kb rest).map (item :: ·)
      | none => none
    else relevantItems kb rest

/-- Model of `EmpathyRAGSystem.retrieve_relevant_knowledge` (value part): embed the
query, search the index for the `k` nearest, filter by the `0.1` threshold
and the `idx < len(knowledge_base)` bound. -/
def retrievePure (env : Env) (st : RAGState) (query : String) (k : Nat) :
    Option (List KnowledgeItem) :=
  relevantItems st.knowledge_base (searchIndex st.index (getEmbeddingPure env query) k)

/-- Wrapper of `retrievePure` recording its one embedding-provider call
recorded on the trace. -/
def retrieveT (env : Env) (st : RAGState) (query : String) (k : Nat) (t : Trace) :
    Option (List KnowledgeItem) × Trace :=
  (retrievePure env st query k, bumpEmbed t)

/-! ### Severity classifier -/

/-- Harsh word list of `_determine_severity`. -/
def harsh_indicators : List String :=
  ["bad", "wrong", "terrible", "awful", "stupid", "inefficient"]

/-- Moderate word list of `_determine_severity`. -/
def moderate_indicators : List String :=
  ["should", "could", "consider", "might"]

/-- Model of `EmpathethicCodeReviewer._determine_severity`: lowercase the comment,
report "harsh" if any harsh indicator occurs as a substring, otherwise
"moderate" if any moderate indicator occurs, otherwise "neutral". -/
def determineSeverity (comment : String) : String :=
  let comment_lower := strLower comment
  if harsh_indicators.any (fun w => strIn w comment_lower) then "harsh"
  else if moderate_indicators.any (fun w => strIn w comment_lower) then "moderate"
  else "neutral"

/-! ### Feedback synthesis -/

/-- The four mutable sections of the fallback parser state. -/
inductive FSection where
  | pos
  | why
  | sugg
  | code
deriving DecidableEq

/-- The result dict the fallback parser starts from: all four text fields
empty, no resource links. -/
def emptyFeedback : Feedback :=
  { positive_rephrasing := "", the_why := "", suggested_improvement := "",
    code_example := "", resource_links := [] }

/-- Step `result[current_section] += line + " "` for each of the four sections. -/
def addLine (r : Feedback) (s : FSection) (line : String) : Feedback :=
  match s with
  | .pos => { r with positive_rephrasing := r.positive_rephrasing ++ line ++ " " }
  | .why => { r with the_why := r.the_why ++ line ++ " " }
  | .sugg => { r with suggested_improvement := r.suggested_improvement ++ line ++ " " }
  | .code => { r with code_example := r.code_example ++ line ++ " " }

/-- One iteration of the line loop of `_parse_fallback_response`
(src/main.py:219-231): strip the line, switch the active section on header
text, toggle the code-example section on a fence, append any other
non-empty line to the active section, and drop everything else. -/
def stepLine (st : Option FSection × Feedback) (raw : String) : Option FSection × Feedback :=
  let line := pyStrip raw
  let lower := strLower line
  let cur := st.1
  let r := st.2
  if strIn "positive rephrasing" lower then (some .pos, r)
  else if strIn "why" lower then (some .why, r)
  else if strIn "suggested improvement" lower || strIn "improvement" lower then (some .sugg, r)
  else if strStartsWith "```" line then
    (if cur = some .code then none else some .code, r)
  else
    match cur with
    | some s => if line = "" then (some s, r) else (some s, addLine r s line)
    | none => (none, r)

/-- Model of `EmpathethicCodeReviewer._parse_fallback_response`: fold the line step
over the newline-split response text, starting with no active section and
an empty result dict. -/
def parseFallbackResponse (response_text : String) : Feedback :=
  ((pySplitLines response_text).foldl stepLine (none, emptyFeedback)).2

/-- Severity-specific tone instruction (`severity_guidance` dict).  In the
source an unknown key would raise `KeyError`, but every call site passes
the output of `_determine_severity`, which is one of the three keys; the
catch-all branch returns the "neutral" entry and is unreachable from
`process_review`. -/
def severityGuidance (severity : String) : String :=
  if severity = "harsh" then
    "The original comment was quite direct. Please be extra gentle and encouraging in your response."
  else if severity = "moderate" then
    "The original comment was moderately constructive. Maintain a supportive tone."
  else
    "The original comment was neutral. Provide balanced, educational feedback."

/-- The per-comment prompt f-string of `_generate_empathetic_response`,
with the knowledge digest `context` spliced in. -/
def buildPrompt (code_snippet comment severity : String)
    (relevant_knowledge : List KnowledgeItem) : String :=
  let context := String.intercalate (Char.ofNat 10).toString
    (relevant_knowledge.map (fun item => "- " ++ item.content))
  "\nYou are an empathetic senior developer reviewing code. Transform the following critical comment into constructive, educational feedback.\n\nCode Snippet:\n```python\n"
    ++ code_snippet
    ++ "\n```\n\nOriginal Comment: \"" ++ comment
    ++ "\"\n\nSeverity Context: " ++ severityGuidance severity
    ++ "\n\nRelevant Knowledge Context:\n" ++ context
    ++ "\n\nPlease provide:\n\n1. **Positive Rephrasing**: Rewrite the comment to be encouraging and constructive while maintaining the technical accuracy. Start with something positive about the code.\n\n2. **The "
    ++ apos ++ "Why" ++ apos
    ++ "**: Explain the underlying software engineering principle or best practice. Make it educational and help the developer understand the reasoning.\n\n3. **Suggested Improvement**: Provide a concrete code example that demonstrates the recommended fix. Make sure it"
    ++ apos
    ++ "s directly applicable to the given code snippet.\n\nFormat your response as JSON with keys: \"positive_rephrasing\", \"the_why\", \"suggested_improvement\", \"code_example\"\n\nBe warm, encouraging, and educational. Focus on growth and learning rather than criticism.\n"

/-- The fixed fallback dict returned when the generation call itself raises
(src/main.py:197-203). -/
def fallbackFeedback : Feedback :=
  { positive_rephrasing :=
      "Thanks for sharing your code! There" ++ apos ++ "s an opportunity to improve this section.",
    the_why := "Code improvements help with maintainability and performance.",
    suggested_improvement := "Consider refactoring this section for better clarity.",
    code_example := "# Improved version would go here",
    resource_links := [] }

/-- Model of `EmpathethicCodeReviewer._generate_empathetic_response` (value part):
build the prompt, call the generation provider; on success parse the
stripped text as JSON, falling back to the heuristic line parser on a
decode error, then overwrite `resource_links` with the deduplicated
retrieved links whenever any were retrieved; if the provider call raised,
return the fixed fallback dict. -/
def genResponsePure (env : Env) (code_snippet comment severity : String)
    (relevant_knowledge : List KnowledgeItem) : Feedback :=
  let resource_links := relevant_knowledge.map (fun item => item.resource_link)
  let prompt := buildPrompt code_snippet comment severity relevant_knowledge
  match env.generate prompt with
  | some text =>
    let result :=
      match env.parseJSON (pyStrip text) with
      | some r => r
      | none => parseFallbackResponse text
    if resource_links ≠ [] then { result with resource_links := env.dedup resource_links }
    else result
  | none => fallbackFeedback

/-- Wrapper of `genResponsePure` recording its one generation-provider call
recorded on the trace. -/
def genResponseT (env : Env) (code_snippet comment severity : String)
    (relevant_knowledge : List KnowledgeItem) (t : Trace) : Feedback × Trace :=
  (genResponsePure env code_snippet comment severity relevant_knowledge, bumpGen t)

/-- The holistic-summary prompt of `_generate_holistic_summary`, spliced
with `len(comments)`. -/
def summaryPrompt (n : Nat) : String :=
  "\nBased on the code review feedback provided, generate a brief, encouraging summary that:\n1. Acknowledges the positive aspects of the original code\n2. Highlights the main learning opportunities\n3. Motivates the developer to continue improving\n4. Keeps a warm, supportive tone\n\nOriginal code had "
    ++ toString n
    ++ " review points. Focus on growth and learning.\nKeep the summary to 2-3 sentences maximum.\n"

/-- Fixed summary used when the summary generation call raises. -/
def fallbackSummaryText : String :=
  "Great work on submitting your code for review! The feedback provided will help you write even better code in the future. Keep up the excellent learning attitude!"

/-- Model of `EmpathethicCodeReviewer._generate_holistic_summary` (value part).  The
source also receives `code_snippet` and the per-comment `feedback` list,
but the prompt only uses the number of comments. -/
def summaryPure (env : Env) (code_snippet : String) (comments : List String)
    (feedback : List Feedback) : String :=
  match env.generate (summaryPrompt comments.length) with
  | some text => pyStrip text
  | none => fallbackSummaryText

/-- Wrapper of `summaryPure` recording its one generation-provider call
recorded on the trace. -/
def summaryT (env : Env) (code_snippet : String) (comments : List String)
    (feedback : List Feedback) (t : Trace) : String × Trace :=
  (summaryPure env code_snippet comments feedback, bumpGen t)

/-! ### Report assembly (process_review) and the HTTP endpoint -/

/-- Input dict of `process_review` as the `/review` endpoint supplies it
(both keys always present). -/
structure ReviewInput where
  code_snippet : String
  review_comments : List String
deriving DecidableEq

/-- The per-comment Markdown section of the `process_review` loop
(src/main.py:261-275): a header echoing the comment, the three labelled
text fields, the code block only when `code_example` is non-empty, the
resource list only when `resource_links` is non-empty, then a rule. -/
def renderSection (i : Nat) (comment : String) (response : Feedback) : String :=
  let s := "### Analysis of Comment " ++ toString i ++ ": \"" ++ comment ++ "\"\n\n"
  let s := s ++ "**Positive Rephrasing:** " ++ response.positive_rephrasing ++ "\n\n"
  let s := s ++ "**The " ++ apos ++ "Why" ++ apos ++ ":** " ++ response.the_why ++ "\n\n"
  let s := s ++ "**Suggested Improvement:**\n" ++ response.suggested_improvement ++ "\n\n"
  let s :=
    if response.code_example ≠ "" then
      s ++ "```python\n" ++ response.code_example ++ "\n```\n\n"
    else s
  let s :=
    if response.resource_links ≠ [] then
      s ++ "**Additional Resources:**\n"
        ++ strConcat (response.resource_links.map (fun link => "- [" ++ link ++ "](" ++ link ++ ")\n"))
        ++ "\n"
    else s
  s ++ "---\n\n"

/-- Report preamble: title plus the "Code Under Review" block. -/
def reportHeader (code_snippet : String) : String :=
  "# Empathetic Code Review Report\n\n"
    ++ ("## Code Under Review\n\n```python\n" ++ code_snippet ++ "\n```\n\n")

/-- Closing motivational line of the report. -/
def closingLine : String :=
  "*Remember: Every piece of feedback is an opportunity to grow. Keep coding and keep learning!* 🚀"

/-- Error string returned by `process_review` on empty input. -/
def errMissing : String := "Error: Missing code snippet or review comments."

/-- The `for i, comment in enumerate(review_comments, 1)` loop of
`process_review`: retrieve knowledge, classify severity, synthesize the
response, append the rendered section to the report and the response to
`all_feedback`.  `none` models an exception escaping the loop (only an
`IndexError` from retrieval could cause one). -/
def reviewLoop (env : Env) (st : RAGState) (code_snippet : String) :
    Nat → List String → String → List Feedback → Trace →
    Option (String × List Feedback × Trace)
  | _, [], acc, fb, t => some (acc, fb, t)
  | i, comment :: rest, acc, fb, t =>
    match retrieveT env st comment 3 t with
    | (none, _) => none
    | (some relevant_knowledge, t1) =>
      let severity := determineSeverity comment
      let (response, t2) := genResponseT env code_snippet comment severity relevant_knowledge t1
      reviewLoop env st code_snippet (i + 1) rest
        (acc ++ renderSection i comment response) (fb ++ [response]) t2

/-- Model of `EmpathethicCodeReviewer.process_review`: fail fast with the literal
error string when the code snippet or comment list is empty (returning the
incoming trace untouched, i.e. without any provider call); otherwise build
the header, run the per-comment loop, and append the overall summary and
the closing line. -/
def processReviewT (env : Env) (st : RAGState) (input : ReviewInput) (t : Trace) :
    Option (String × Trace) :=
  if input.code_snippet = "" ∨ input.review_comments = [] then some (errMissing, t)
  else
    match reviewLoop env st input.code_snippet 1 input.review_comments
        (reportHeader input.code_snippet) [] t with
    | none => none
    | some (body, all_feedback, t1) =>
      let (summary, t2) :=
        summaryT env input.code_snippet input.review_comments all_feedback t1
      some (body ++ ("## Overall Summary\n\n" ++ summary ++ "\n\n") ++ closingLine, t2)

/-- Response model of `POST /review` (`CodeReviewResponse` in src/app.py;
`message` defaults to the empty string). -/
structure CodeReviewResponse where
  markdown_report : String
  success : Bool
  message : String
deriving DecidableEq

/-- Outcome of one `/review` request: a 200 response carrying the body
model, or an `HTTPException` with a status code and detail text. -/
inductive ReviewHTTPResult where
  | ok : CodeReviewResponse → ReviewHTTPResult
  | httpError : Nat → String → ReviewHTTPResult
deriving DecidableEq

/-- HTTP status code of an endpoint outcome (FastAPI returns 200 for a
normal `response_model` return). -/
def httpStatus : ReviewHTTPResult → Nat
  | .ok _ => 200
  | .httpError status _ => status

/-- The `POST /review` handler `generate_empathetic_review` of src/app.py:
run `process_review` on the request body; a normal return becomes a 200
response with `success=True`, and any exception becomes an HTTP 500 whose
detail starts with "Error generating review: " (the exception text itself
is not modelled). -/
def generateEmpatheticReview (env : Env) (st : RAGState) (req : ReviewInput)
    (t : Trace) : ReviewHTTPResult × Trace :=
  match processReviewT env st req t with
  | some (markdown_report, t1) =>
    (.ok { markdown_report := markdown_report, success := true, message := "" }, t1)
  | none => (.httpError 500 "Error generating review: ", t)

/-! ### Concrete instantiations used by the witnesses -/

/-- Deterministic stub environment: every provider call raises, so the
zero-vector and fixed-fallback paths are taken; `dedup` is the identity. -/
def stubEnv : Env :=
  { embed := fun _ => none,
    generate := fun _ => none,
    parseJSON := fun _ => none,
    dedup := fun links => links }

/-- The RAG state after startup under the stub environment. -/
def stubState : RAGState := initializeKnowledgeBase stubEnv

/-- The Markdown section the loop body of `process_review` produces for the
`i`-th comment, written as a standalone function of the comment (its text
does not depend on the trace): retrieve, classify, synthesize, render.  The
`none` branch is unreachable (`retrievePure_isSome` below). -/
def commentSection (env : Env) (st : RAGState) (code_snippet : String)
    (i : Nat) (comment : String) : String :=
  match retrievePure env st comment 3 with
  | some relevant_knowledge =>
    renderSection i comment
      (genResponsePure env code_snippet comment (determineSeverity comment)
        relevant_knowledge)
  | none => ""

/-- The per-comment sections of the report, one per input comment, numbered
from `i` in input order. -/
def commentSections (env : Env) (st : RAGState) (code_snippet : String) :
    Nat → List String → List String
  | _, [] => []
  | i, c :: cs =>
    commentSection env st code_snippet i c
      :: commentSections env st code_snippet (i + 1) cs

/-! ### Substring semantics of `strIn` -/

/-- Truth of `isPreOf` means a literal prefix decomposition exists. -/
theorem isPreOf_iff : ∀ (n h : List Char), isPreOf n h = true ↔ ∃ r, h = n ++ r
  | [], h => by simp [isPreOf]
  | c :: cs, [] => by simp [isPreOf]
  | c :: cs, d :: ds => by
    simp only [isPreOf, Bool.and_eq_true, decide_eq_true_eq, List.cons_append,
      List.cons.injEq]
    constructor
    · rintro ⟨rfl, hp⟩
      obtain ⟨r, rfl⟩ := (isPreOf_iff cs ds).1 hp
      exact ⟨r, rfl, rfl⟩
    · rintro ⟨r, rfl, rfl⟩
      exact ⟨rfl, (isPreOf_iff cs (cs ++ r)).2 ⟨r, rfl⟩⟩

/-- Truth of `subOf` is exactly contiguous-substring occurrence: some decomposition
`hay = l ++ needle ++ r` exists. -/
theorem subOf_iff (n : List Char) : ∀ h : List Char,
    subOf n h = true ↔ ∃ l r, h = l ++ n ++ r
  | [] => by
    constructor
    · intro hs
      have : n = [] := by
        simpa [subOf, List.isEmpty_iff] using hs
      exact ⟨[], [], by simp [this]⟩
    · rintro ⟨l, r, hr⟩
      have : n = [] ∧ l = [] ∧ r = [] := by
        constructor
        · cases l <;> cases n <;> simp_all
        · constructor
          · cases l <;> simp_all
          · cases l <;> cases n <;> cases r <;> simp_all
      simp [subOf, this.1]
  | d :: ds => by
    simp only [subOf, Bool.or_eq_true]
    constructor
    · rintro (hp | hs)
      · obtain ⟨r, hr⟩ := (isPreOf_iff n (d :: ds)).1 hp
        exact ⟨[], r, by simpa using hr⟩
      · obtain ⟨l, r, rfl⟩ := (subOf_iff n ds).1 hs
        exact ⟨d :: l, r, by simp⟩
    · rintro ⟨l, r, hr⟩
      cases l with
      | nil =>
        exact Or.inl ((isPreOf_iff n (d :: ds)).2 ⟨r, by simpa using hr⟩)
      | cons x xs =>
        refine Or.inr ((subOf_iff n ds).2 ⟨xs, r, ?_⟩)
        have := hr
        simp only [List.cons_append, List.cons.injEq] at this
        exact this.2

/-! ### C1: the knowledge-base load never populates the index -/

/-- C1 (code bug evidence): after `_initialize_knowledge_base` runs, the
FAISS index holds 0 vectors while the knowledge base holds all 6 catalog
entries, so the claimed alignment invariant "index length equals
knowledge-base length, every entry added to the index exactly once" fails:
the `index.add` statement at src/main.py:87 is commented out. -/
theorem init_index_knowledge_misaligned (env : Env) :
    (initializeKnowledgeBase env).index.length = 0 ∧
    (initializeKnowledgeBase env).knowledge_base.length = 6 ∧
    (initializeKnowledgeBase env).index.length ≠
      (initializeKnowledgeBase env).knowledge_base.length := by
  refine ⟨?_, ?_, ?_⟩ <;>
    simp [initializeKnowledgeBase, knowledgeCatalog]

/-! ### C2: the endpoint answers empty input with HTTP 200 -/

/-- C2 (counterexample): a `/review` request with an empty `code_snippet`
is answered with HTTP 200 and `success=True` — a 2xx status — carrying the
error text of the core in `markdown_report`, refuting the claimed non-2xx
status. -/
theorem review_endpoint_empty_input_returns_200 :
    generateEmpatheticReview stubEnv stubState
        { code_snippet := "", review_comments := ["Variable u is a bad name."] }
        { nEmbed := 0, nGenerate := 0 }
      = (.ok { markdown_report := "Error: Missing code snippet or review comments.",
               success := true, message := "" },
         { nEmbed := 0, nGenerate := 0 }) ∧
    httpStatus (generateEmpatheticReview stubEnv stubState
        { code_snippet := "", review_comments := ["Variable u is a bad name."] }
        { nEmbed := 0, nGenerate := 0 }).1 / 100 = 2 := by
  exact ⟨by decide, by decide⟩

/-- C2 (amended): for every `/review` request whose `code_snippet` is empty
or whose `review_comments` list is empty, the endpoint returns HTTP 200
with `success=True` and the distinct core message "Error: Missing code
snippet or review comments." as the whole `markdown_report` (transport
failures instead surface as `HTTPException`s with a different detail), and
makes no provider call. -/
theorem review_endpoint_empty_input_ok_response (env : Env) (st : RAGState)
    (req : ReviewInput) (t : Trace)
    (h : req.code_snippet = "" ∨ req.review_comments = []) :
    generateEmpatheticReview env st req t
      = (.ok { markdown_report := "Error: Missing code snippet or review comments.",
               success := true, message := "" }, t) ∧
    httpStatus (generateEmpatheticReview env st req t).1 = 200 := by
  have hp : processReviewT env st req t = some (errMissing, t) := by
    unfold processReviewT
    rw [if_pos h]
  constructor
  · unfold generateEmpatheticReview
    rw [hp]
    rfl
  · unfold generateEmpatheticReview
    rw [hp]
    rfl

/-- Witness for the amended C2 theorem at a concrete empty-snippet request. -/
theorem review_endpoint_empty_input_ok_response_witness :
    (("" : String) = "" ∨ (["This is inefficient."] : List String) = []) ∧
    generateEmpatheticReview stubEnv stubState
        { code_snippet := "", review_comments := ["This is inefficient."] }
        { nEmbed := 3, nGenerate := 4 }
      = (.ok { markdown_report := "Error: Missing code snippet or review comments.",
               success := true, message := "" },
         { nEmbed := 3, nGenerate := 4 }) :=
  ⟨Or.inl rfl,
    (review_endpoint_empty_input_ok_response stubEnv stubState
      { code_snippet := "", review_comments := ["This is inefficient."] }
      { nEmbed := 3, nGenerate := 4 } (Or.inl rfl)).1⟩

/-! ### C3: process_review fails fast on empty input -/

/-- C3: on an empty code snippet or an empty comment list, `process_review`
returns exactly the literal string "Error: Missing code snippet or review
comments." and the trace comes back untouched: no embedding-provider and no
generation-provider call is made. -/
theorem process_review_empty_input_message_no_calls (env : Env) (st : RAGState)
    (input : ReviewInput) (t : Trace)
    (h : input.code_snippet = "" ∨ input.review_comments = []) :
    processReviewT env st input t
      = some ("Error: Missing code snippet or review comments.", t) := by
  unfold processReviewT
  rw [if_pos h]
  rfl

/-- Witness for C3 at a concrete input with a non-empty snippet but no
comments, and a non-zero starting trace. -/
theorem process_review_empty_input_message_no_calls_witness :
    (("def f(): pass" : String) = "" ∨ ([] : List String) = []) ∧
    processReviewT stubEnv stubState
        { code_snippet := "def f(): pass", review_comments := [] }
        { nEmbed := 1, nGenerate := 2 }
      = some ("Error: Missing code snippet or review comments.",
              { nEmbed := 1, nGenerate := 2 }) :=
  ⟨Or.inr rfl,
    process_review_empty_input_message_no_calls stubEnv stubState
      { code_snippet := "def f(): pass", review_comments := [] }
      { nEmbed := 1, nGenerate := 2 } (Or.inr rfl)⟩

/-! ### C6: total generation failure degrades to the fixed fallback -/

/-- C6: when the generation provider fails on every prompt, the feedback
synthesis step does not fail: it returns the fixed fallback dict, whose
four text fields are non-empty and whose resource-links list is empty,
after its single (failed) generation call. -/
theorem gen_response_total_failure_fallback (env : Env)
    (code_snippet comment severity : String)
    (relevant_knowledge : List KnowledgeItem) (t : Trace)
    (h : ∀ s, env.generate s = none) :
    genResponseT env code_snippet comment severity relevant_knowledge t
      = (fallbackFeedback, bumpGen t) ∧
    fallbackFeedback.positive_rephrasing ≠ "" ∧
    fallbackFeedback.the_why ≠ "" ∧
    fallbackFeedback.suggested_improvement ≠ "" ∧
    fallbackFeedback.code_example ≠ "" ∧
    fallbackFeedback.resource_links = [] := by
  refine ⟨?_, by decide, by decide, by decide, by decide, rfl⟩
  unfold genResponseT genResponsePure
  simp only [h]

/-- Witness for C6 at a concrete comment under the all-failing stub
environment. -/
theorem gen_response_total_failure_fallback_witness :
    (∀ s, stubEnv.generate s = none) ∧
    genResponseT stubEnv "def f(): pass" "This is bad." "harsh" []
        { nEmbed := 1, nGenerate := 0 }
      = (fallbackFeedback, { nEmbed := 1, nGenerate := 1 }) :=
  ⟨fun _ => rfl,
    (gen_response_total_failure_fallback stubEnv "def f(): pass" "This is bad."
      "harsh" [] { nEmbed := 1, nGenerate := 0 } (fun _ => rfl)).1⟩

/-! ### C5: keyword-based severity classification -/

/-- C5: severity is a pure function of the comment text.  Any harsh
indicator occurring as a substring of the lowercased comment forces
"harsh" (regardless of moderate indicators); with no harsh indicator, any
moderate indicator forces "moderate"; with neither, the result is
"neutral".  `strIn w (strLower comment) = true` is exactly case-insensitive
substring occurrence, by `subOf_iff`. -/
theorem severity_keyword_classification (comment : String) :
    ((∃ w ∈ harsh_indicators, strIn w (strLower comment) = true) →
      determineSeverity comment = "harsh") ∧
    ((∀ w ∈ harsh_indicators, strIn w (strLower comment) = false) →
      (∃ w ∈ moderate_indicators, strIn w (strLower comment) = true) →
      determineSeverity comment = "moderate") ∧
    ((∀ w ∈ harsh_indicators, strIn w (strLower comment) = false) →
      (∀ w ∈ moderate_indicators, strIn w (strLower comment) = false) →
      determineSeverity comment = "neutral") := by
  refine ⟨?_, ?_, ?_⟩
  · intro h
    unfold determineSeverity
    rw [if_pos]
    simpa [List.any_eq_true] using h
  · intro hh hm
    unfold determineSeverity
    rw [if_neg, if_pos]
    · simpa [List.any_eq_true] using hm
    · simp only [List.any_eq_true, not_exists, not_and]
      intro w hw
      simp [hh w hw]
  · intro hh hm
    unfold determineSeverity
    rw [if_neg, if_neg]
    · simp only [List.any_eq_true, not_exists, not_and]
      intro w hw
      simp [hm w hw]
    · simp only [List.any_eq_true, not_exists, not_and]
      intro w hw
      simp [hh w hw]

/-- Witness for C5: a comment containing both the harsh word "bad" and the
moderate word "should" is classified "harsh". -/
theorem severity_keyword_classification_witness :
    strIn "bad" (strLower "This is BAD, but you should fix it.") = true ∧
    determineSeverity "This is BAD, but you should fix it." = "harsh" :=
  ⟨by decide,
    (severity_keyword_classification "This is BAD, but you should fix it.").1
      ⟨"bad", by decide, by decide⟩⟩

/-! ### C7: the heuristic fallback parser is the described line machine -/

/-- C7: `_parse_fallback_response` folds a line state machine over the
newline-split response, and each step behaves as specified: a line whose
lowercase stripped text contains "positive rephrasing", "why", or
"suggested improvement"/"improvement" (checked in that order) switches the
active section; otherwise a line starting with a code fence toggles the
code-example section; otherwise a non-empty line with an active section is
appended to that section followed by a space; text with no active section
(in particular, text before any header) is discarded; empty lines change
nothing. -/
theorem fallback_step_behavior :
    (∀ text, parseFallbackResponse text
        = ((pySplitLines text).foldl stepLine (none, emptyFeedback)).2) ∧
    ∀ (cur : Option FSection) (r : Feedback) (raw : String),
      (strIn "positive rephrasing" (strLower (pyStrip raw)) = true →
        stepLine (cur, r) raw = (some .pos, r)) ∧
      (strIn "positive rephrasing" (strLower (pyStrip raw)) = false →
        strIn "why" (strLower (pyStrip raw)) = true →
        stepLine (cur, r) raw = (some .why, r)) ∧
      (strIn "positive rephrasing" (strLower (pyStrip raw)) = false →
        strIn "why" (strLower (pyStrip raw)) = false →
        (strIn "suggested improvement" (strLower (pyStrip raw)) = true ∨
          strIn "improvement" (strLower (pyStrip raw)) = true) →
        stepLine (cur, r) raw = (some .sugg, r)) ∧
      (strIn "positive rephrasing" (strLower (pyStrip raw)) = false →
        strIn "why" (strLower (pyStrip raw)) = false →
        strIn "suggested improvement" (strLower (pyStrip raw)) = false →
        strIn "improvement" (strLower (pyStrip raw)) = false →
        strStartsWith "```" (pyStrip raw) = true →
        stepLine (cur, r) raw
          = (if cur = some .code then none else some .code, r)) ∧
      (∀ s, strIn "positive rephrasing" (strLower (pyStrip raw)) = false →
        strIn "why" (strLower (pyStrip raw)) = false →
        strIn "suggested improvement" (strLower (pyStrip raw)) = false →
        strIn "improvement" (strLower (pyStrip raw)) = false →
        strStartsWith "```" (pyStrip raw) = false →
        cur = some s → pyStrip raw ≠ "" →
        stepLine (cur, r) raw = (some s, addLine r s (pyStrip raw))) ∧
      (strIn "positive rephrasing" (strLower (pyStrip raw)) = false →
        strIn "why" (strLower (pyStrip raw)) = false →
        strIn "suggested improvement" (strLower (pyStrip raw)) = false →
        strIn "improvement" (strLower (pyStrip raw)) = false →
        strStartsWith "```" (pyStrip raw) = false →
        cur = none →
        stepLine (cur, r) raw = (none, r)) ∧
      (strIn "positive rephrasing" (strLower (pyStrip raw)) = false →
        strIn "why" (strLower (pyStrip raw)) = false →
        strIn "suggested improvement" (strLower (pyStrip raw)) = false →
        strIn "improvement" (strLower (pyStrip raw)) = false →
        strStartsWith "```" (pyStrip raw) = false →
        pyStrip raw = "" →
        stepLine (cur, r) raw = (cur, r)) := by
  refine ⟨fun _ => rfl, ?_⟩
  intro cur r raw
  refine ⟨?_, ?_, ?_, ?_, ?_, ?_, ?_⟩
  · intro h1
    simp [stepLine, h1]
  · intro h1 h2
    simp [stepLine, h1, h2]
  · intro h1 h2 h3
    have hor : (strIn "suggested improvement" (strLower (pyStrip raw)) ||
        strIn "improvement" (strLower (pyStrip raw))) = true := by
      rcases h3 with h | h <;> simp [h]
    simp [stepLine, h1, h2, hor]
  · intro h1 h2 h3 h4 h5
    simp [stepLine, h1, h2, h3, h4, h5]
  · intro s h1 h2 h3 h4 h5 hc hne
    simp [stepLine, h1, h2, h3, h4, h5, hc, hne]
  · intro h1 h2 h3 h4 h5 hc
    simp [stepLine, h1, h2, h3, h4, h5, hc]
  · intro h1 h2 h3 h4 h5 he
    rw [he] at h1 h2 h3 h4 h5
    cases cur <;> simp [stepLine, he, h1, h2, h3, h4, h5]

/-- Witness for C7: a concrete header line activates the
positive-rephrasing section without touching the accumulated result. -/
theorem fallback_step_behavior_witness :
    strIn "positive rephrasing" (strLower (pyStrip "1. **Positive Rephrasing**: nice start")) = true ∧
    stepLine (none, emptyFeedback) "1. **Positive Rephrasing**: nice start"
      = (some .pos, emptyFeedback) :=
  ⟨by decide,
    ((fallback_step_behavior.2 none emptyFeedback
      "1. **Positive Rephrasing**: nice start").1 (by decide))⟩

/-! ### Retrieval lemmas -/

/-- The retrieval threshold is exactly one tenth (`0.1` in the source). -/
theorem simThreshold_eq_tenth : simThreshold = 1 / 10 := by
  norm_num [simThreshold]

/-- Insertion keeps exactly the old elements plus the new one. -/
theorem mem_insertDesc {x p : ℚ × Int} :
    ∀ {l : List (ℚ × Int)}, x ∈ insertDesc p l → x = p ∨ x ∈ l
  | [], h => by simpa [insertDesc] using h
  | q :: qs, h => by
    unfold insertDesc at h
    by_cases hc : q.1 ≤ p.1
    · rw [if_pos hc] at h
      simpa using h
    · rw [if_neg hc] at h
      rcases List.mem_cons.1 h with h | h
      · exact Or.inr (h ▸ List.mem_cons_self q qs)
      · rcases mem_insertDesc h with h | h
        · exact Or.inl h
        · exact Or.inr (List.mem_cons_of_mem q h)

/-- Sorting produces no new elements. -/
theorem mem_sortDesc {x : ℚ × Int} :
    ∀ {l : List (ℚ × Int)}, x ∈ sortDesc l → x ∈ l
  | [], h => by simpa [sortDesc] using h
  | a :: as, h => by
    have h' : x ∈ insertDesc a (sortDesc as) := h
    rcases mem_insertDesc h' with h | h
    · exact h ▸ List.mem_cons_self a as
    · exact List.mem_cons_of_mem a (mem_sortDesc h)

/-- FAISS always reports exactly `k` (score, label) pairs per query. -/
theorem searchIndex_length (vecs : List (List ℚ)) (q : List ℚ) (k : Nat) :
    (searchIndex vecs q k).length = k := by
  simp only [searchIndex, List.length_append, List.length_replicate]
  exact Nat.add_sub_cancel' (List.length_take_le k _)

/-- Every search hit is either a genuine stored-vector position
(non-negative label) or the padding pair `(noResultScore, -1)`. -/
theorem searchIndex_mem {vecs : List (List ℚ)} {q : List ℚ} {k : Nat}
    {p : ℚ × Int} (h : p ∈ searchIndex vecs q k) :
    0 ≤ p.2 ∨ p = (noResultScore, -1) := by
  simp only [searchIndex] at h
  rcases List.mem_append.1 h with h | h
  · left
    have h1 : p ∈ sortDesc (vecs.enum.map
        (fun q_1 => (innerProduct q q_1.2, (q_1.1 : Int)))) := List.mem_of_mem_take h
    have h2 := mem_sortDesc h1
    obtain ⟨⟨i, v⟩, _, rfl⟩ := List.mem_map.1 h2
    exact Int.natCast_nonneg i
  · right
    exact List.eq_of_mem_replicate h

/-- The filter loop keeps at most one item per hit. -/
theorem relevantItems_length {kb : List KnowledgeItem} :
    ∀ {hits : List (ℚ × Int)} {res : List KnowledgeItem},
      relevantItems kb hits = some res → res.length ≤ hits.length
  | [], res, h => by
    simp only [relevantItems, Option.some.injEq] at h
    simp [← h]
  | (s, idx) :: rest, res, h => by
    unfold relevantItems at h
    by_cases hc : idx < (kb.length : Int) ∧ simThreshold < s
    · rw [if_pos hc] at h
      cases hg : pyListGet kb idx with
      | none => rw [hg] at h; cases h
      | some item =>
        rw [hg] at h
        cases hr : relevantItems kb rest with
        | none => rw [hr] at h; cases h
        | some res' =>
          rw [hr] at h
          simp only [Option.map_some', Option.some.injEq] at h
          subst h
          simpa using Nat.succ_le_succ (relevantItems_length hr)
    · rw [if_neg hc] at h
      exact (relevantItems_length h).trans (Nat.le_succ _)

/-- Every item the filter loop returns comes from a hit that passed both
the bound check and the `0.1` score threshold. -/
theorem relevantItems_mem {kb : List KnowledgeItem} :
    ∀ {hits : List (ℚ × Int)} {res : List KnowledgeItem},
      relevantItems kb hits = some res →
      ∀ {item : KnowledgeItem}, item ∈ res →
        ∃ p ∈ hits, p.2 < (kb.length : Int) ∧ simThreshold < p.1 ∧
          pyListGet kb p.2 = some item
  | [], res, h, item, hi => by
    simp only [relevantItems, Option.some.injEq] at h
    subst h
    cases hi
  | (s, idx) :: rest, res, h, item, hi => by
    unfold relevantItems at h
    by_cases hc : idx < (kb.length : Int) ∧ simThreshold < s
    · rw [if_pos hc] at h
      cases hg : pyListGet kb idx with
      | none => rw [hg] at h; cases h
      | some item' =>
        rw [hg] at h
        cases hr : relevantItems kb rest with
        | none => rw [hr] at h; cases h
        | some res' =>
          rw [hr] at h
          simp only [Option.map_some', Option.some.injEq] at h
          subst h
          rcases List.mem_cons.1 hi with hi | hi
          · exact ⟨(s, idx), List.mem_cons_self _ _, hc.1, hc.2, hi ▸ hg⟩
          · obtain ⟨p, hp, h1, h2, h3⟩ := relevantItems_mem hr hi
            exact ⟨p, List.mem_cons_of_mem _ hp, h1, h2, h3⟩
    · rw [if_neg hc] at h
      obtain ⟨p, hp, h1, h2, h3⟩ := relevantItems_mem h hi
      exact ⟨p, List.mem_cons_of_mem _ hp, h1, h2, h3⟩

/-- Python indexing succeeds on any in-range index, negative or not. -/
theorem pyListGet_isSome {l : List KnowledgeItem} {i : Int}
    (hlo : -(l.length : Int) ≤ i) (hhi : i < (l.length : Int)) :
    ∃ a, pyListGet l i = some a := by
  unfold pyListGet
  by_cases h0 : 0 ≤ i
  · rw [if_pos h0]
    have hlt : i.toNat < l.length := by omega
    exact ⟨l[i.toNat], List.getElem?_eq_getElem hlt⟩
  · rw [if_neg h0, if_pos hlo]
    have hlt : ((l.length : Int) + i).toNat < l.length := by omega
    exact ⟨_, List.getElem?_eq_getElem hlt⟩

/-- The filter loop raises no `IndexError` as long as every hit that can
pass the score threshold has an in-range (possibly negative) label. -/
theorem relevantItems_isSome {kb : List KnowledgeItem} :
    ∀ {hits : List (ℚ × Int)},
      (∀ p ∈ hits, simThreshold < p.1 → -(kb.length : Int) ≤ p.2) →
      ∃ res, relevantItems kb hits = some res
  | [], _ => ⟨[], rfl⟩
  | (s, idx) :: rest, hOK => by
    obtain ⟨res, hres⟩ :=
      relevantItems_isSome (fun p hp => hOK p (List.mem_cons_of_mem _ hp))
    by_cases hc : idx < (kb.length : Int) ∧ simThreshold < s
    · obtain ⟨a, ha⟩ :=
        pyListGet_isSome (hOK (s, idx) (List.mem_cons_self _ _) hc.2) hc.1
      refine ⟨a :: res, ?_⟩
      unfold relevantItems
      rw [if_pos hc, ha, hres]
      rfl
    · refine ⟨res, ?_⟩
      unfold relevantItems
      rw [if_neg hc]
      exact hres

/-- Retrieval never raises: FAISS labels are `-1` or genuine positions, and
padding scores sit far below the threshold. -/
theorem retrievePure_isSome (env : Env) (st : RAGState) (query : String) (k : Nat) :
    ∃ res, retrievePure env st query k = some res := by
  apply relevantItems_isSome
  intro p hp hs
  rcases searchIndex_mem hp with h0 | hpad
  · omega
  · rw [hpad] at hs
    exact absurd hs (by decide)

/-! ### C4: retrieval returns at most k items, all above the threshold -/

/-- C4: whatever `retrieve_relevant_knowledge` returns has length at most
`k`, and every returned item arises from a search hit whose similarity
score strictly exceeds `0.1` (and that passed the index bound check). -/
theorem retrieve_at_most_k_above_threshold (env : Env) (st : RAGState)
    (query : String) (k : Nat) (res : List KnowledgeItem)
    (h : retrievePure env st query k = some res) :
    res.length ≤ k ∧
    ∀ item ∈ res,
      ∃ hit ∈ searchIndex st.index (getEmbeddingPure env query) k,
        simThreshold < hit.1 ∧ hit.2 < (st.knowledge_base.length : Int) ∧
        pyListGet st.knowledge_base hit.2 = some item := by
  unfold retrievePure at h
  constructor
  · exact (relevantItems_length h).trans (le_of_eq (searchIndex_length _ _ _))
  · intro item hi
    obtain ⟨p, hp, h1, h2, h3⟩ := relevantItems_mem h hi
    exact ⟨p, hp, h2, h1, h3⟩

/-- Witness for C4: retrieval over the startup state (whose index the load
bug left empty) returns the empty list for a concrete query, and the
bounds of the theorem apply to it. -/
theorem retrieve_at_most_k_above_threshold_witness :
    retrievePure stubEnv stubState "Variable u is a bad name." 3 = some [] ∧
    ([] : List KnowledgeItem).length ≤ 3 :=
  ⟨by decide,
    (retrieve_at_most_k_above_threshold stubEnv stubState
      "Variable u is a bad name." 3 [] (by decide)).1⟩

/-! ### C10: the bound check lets the sentinel label -1 through -/

/-- On a non-empty list, Python indexing at `-1` yields the last element. -/
theorem pyListGet_neg_one {l : List KnowledgeItem} (h : l ≠ []) :
    pyListGet l (-1) = l.getLast? := by
  have hlen : 0 < l.length := List.length_pos.2 h
  unfold pyListGet
  rw [if_neg (by omega), if_pos (by omega)]
  have : ((l.length : Int) + -1).toNat = l.length - 1 := by omega
  rw [this, List.getLast?_eq_getElem?]

/-- C10: the filter loop of `retrieve_relevant_knowledge` raises no
`IndexError` on FAISS output (labels are always ≥ -1), but its bound check
`idx < len(knowledge_base)` does not exclude the no-result sentinel `-1`:
any hit `(score, -1)` with `score > 0.1` contributes the LAST knowledge-base
item (Python negative indexing) instead of no item. -/
theorem sentinel_index_returns_last_item :
    ∀ (kb : List KnowledgeItem) (hits : List (ℚ × Int)),
      kb ≠ [] → (∀ p ∈ hits, -1 ≤ p.2) →
      ∃ res, relevantItems kb hits = some res ∧
        ∀ p ∈ hits, p.2 = -1 → simThreshold < p.1 →
          ∀ x, kb.getLast? = some x → x ∈ res := by
  intro kb hits hkb
  induction hits with
  | nil => exact fun _ => ⟨[], rfl, by simp⟩
  | cons hd rest ih =>
    intro hge
    obtain ⟨s, idx⟩ := hd
    obtain ⟨res', hres', hlast'⟩ := ih (fun p hp => hge p (List.mem_cons_of_mem _ hp))
    have hlen : 0 < kb.length := List.length_pos.2 hkb
    by_cases hc : idx < (kb.length : Int) ∧ simThreshold < s
    · have hlo : -(kb.length : Int) ≤ idx := by
        have := hge (s, idx) (List.mem_cons_self _ _)
        simp only at this
        omega
      obtain ⟨a, ha⟩ := pyListGet_isSome hlo hc.1
      refine ⟨a :: res', ?_, ?_⟩
      · unfold relevantItems
        rw [if_pos hc, ha, hres']
        rfl
      · intro p hp h1 hq x hx
        rcases List.mem_cons.1 hp with hp | hp
        · subst hp
          simp only at h1
          subst h1
          rw [pyListGet_neg_one hkb, hx] at ha
          cases ha
          exact List.mem_cons_self _ _
        · exact List.mem_cons_of_mem _ (hlast' p hp h1 hq x hx)
    · refine ⟨res', ?_, ?_⟩
      · unfold relevantItems
        rw [if_neg hc]
        exact hres'
      · intro p hp h1 hq x hx
        rcases List.mem_cons.1 hp with hp | hp
        · subst hp
          simp only at h1 hq
          subst h1
          exact absurd ⟨by omega, hq⟩ hc
        · exact hlast' p hp h1 hq x hx

/-- Witness for C10: a hypothetical hit `(1, -1)` above the threshold on a
two-item knowledge base triggers the theorem. -/
theorem sentinel_index_returns_last_item_witness :
    ([⟨"a", "cat", "link-a", []⟩, ⟨"b", "cat", "link-b", []⟩] : List KnowledgeItem) ≠ [] ∧
    (∀ p ∈ ([(mkRat 1 1, -1)] : List (ℚ × Int)), -1 ≤ p.2) ∧
    ∃ res,
      relevantItems [⟨"a", "cat", "link-a", []⟩, ⟨"b", "cat", "link-b", []⟩]
          [(mkRat 1 1, -1)] = some res ∧
      ∀ p ∈ ([(mkRat 1 1, -1)] : List (ℚ × Int)), p.2 = -1 → simThreshold < p.1 →
        ∀ x, ([⟨"a", "cat", "link-a", []⟩, ⟨"b", "cat", "link-b", []⟩] :
            List KnowledgeItem).getLast? = some x → x ∈ res :=
  ⟨by decide, by decide,
    sentinel_index_returns_last_item
      [⟨"a", "cat", "link-a", []⟩, ⟨"b", "cat", "link-b", []⟩]
      [(mkRat 1 1, -1)] (by decide) (by decide)⟩

/-! ### C8: report structure -/

/-- There is exactly one rendered section per comment. -/
theorem commentSections_length (env : Env) (st : RAGState) (code_snippet : String) :
    ∀ (i : Nat) (cs : List String),
      (commentSections env st code_snippet i cs).length = cs.length
  | _, [] => rfl
  | i, _ :: cs => by
    simp only [commentSections, List.length_cons]
    rw [commentSections_length env st code_snippet (i + 1) cs]

/-- The report loop appends exactly the rendered per-comment sections, in
input order, to its accumulator, making one embedding call and one
generation call per comment. -/
theorem reviewLoop_spec (env : Env) (st : RAGState) (code : String) :
    ∀ (cs : List String) (i : Nat) (acc : String) (fb : List Feedback) (t : Trace),
      ∃ fb', reviewLoop env st code i cs acc fb t
        = some (acc ++ strConcat (commentSections env st code i cs), fb',
            { nEmbed := t.nEmbed + cs.length, nGenerate := t.nGenerate + cs.length }) := by
  intro cs
  induction cs with
  | nil =>
    intro i acc fb t
    refine ⟨fb, ?_⟩
    simp [reviewLoop, commentSections, strConcat, String.append_empty]
  | cons c cs ih =>
    intro i acc fb t
    obtain ⟨knowledge, hk⟩ := retrievePure_isSome env st c 3
    obtain ⟨fb', hrec⟩ := ih (i + 1)
      (acc ++ renderSection i c
        (genResponsePure env code c (determineSeverity c) knowledge))
      (fb ++ [genResponsePure env code c (determineSeverity c) knowledge])
      (bumpGen (bumpEmbed t))
    refine ⟨fb', ?_⟩
    have hsec : commentSection env st code i c
        = renderSection i c
            (genResponsePure env code c (determineSeverity c) knowledge) := by
      unfold commentSection
      rw [hk]
    calc reviewLoop env st code i (c :: cs) acc fb t
        = reviewLoop env st code (i + 1) cs
            (acc ++ renderSection i c
              (genResponsePure env code c (determineSeverity c) knowledge))
            (fb ++ [genResponsePure env code c (determineSeverity c) knowledge])
            (bumpGen (bumpEmbed t)) := by
          simp only [reviewLoop, retrieveT, hk, genResponseT]
      _ = some (acc ++ strConcat (commentSections env st code i (c :: cs)), fb',
            { nEmbed := t.nEmbed + (c :: cs).length,
              nGenerate := t.nGenerate + (c :: cs).length }) := by
          rw [hrec]
          simp only [Option.some.injEq, Prod.mk.injEq, and_true, true_and]
          refine ⟨?_, ?_⟩
          · rw [String.append_assoc]
            refine congrArg (acc ++ ·) ?_
            have hcons : commentSections env st code i (c :: cs)
                = commentSection env st code i c
                  :: commentSections env st code (i + 1) cs := rfl
            rw [hcons, hsec]
            rfl
          · simp only [bumpGen, bumpEmbed, List.length_cons, Trace.mk.injEq]
            omega

/-- C8: on non-empty input, `process_review` produces exactly the report
header, then one rendered section per input comment in input order — each
section (see `renderSection`) opens with a header echoing the original
comment verbatim and includes the code block and resource list only when
non-empty — then the single Overall Summary section and the closing line;
and the number of sections equals the number of comments.  The final trace
records one embedding call per comment and one generation call per comment
plus one for the summary. -/
theorem report_structure_matches_comments (env : Env) (st : RAGState)
    (code : String) (comments : List String) (t : Trace)
    (hc : code ≠ "") (hm : comments ≠ []) :
    processReviewT env st { code_snippet := code, review_comments := comments } t
      = some (reportHeader code
            ++ strConcat (commentSections env st code 1 comments)
            ++ ("## Overall Summary\n\n" ++ summaryPure env code comments [] ++ "\n\n")
            ++ closingLine,
          { nEmbed := t.nEmbed + comments.length,
            nGenerate := t.nGenerate + comments.length + 1 }) ∧
    (commentSections env st code 1 comments).length = comments.length := by
  refine ⟨?_, commentSections_length env st code 1 comments⟩
  unfold processReviewT
  rw [if_neg (by simp [hc, hm])]
  obtain ⟨fb', hloop⟩ := reviewLoop_spec env st code comments 1 (reportHeader code) [] t
  rw [hloop]
  rfl

/-- Witness for C8 at a concrete one-comment request under the stub
environment. -/
theorem report_structure_matches_comments_witness :
    ("def f(): pass" : String) ≠ "" ∧ (["ok"] : List String) ≠ [] ∧
    processReviewT stubEnv stubState
        { code_snippet := "def f(): pass", review_comments := ["ok"] }
        { nEmbed := 0, nGenerate := 0 }
      = some (reportHeader "def f(): pass"
            ++ strConcat (commentSections stubEnv stubState "def f(): pass" 1 ["ok"])
            ++ ("## Overall Summary\n\n"
                ++ summaryPure stubEnv "def f(): pass" ["ok"] [] ++ "\n\n")
            ++ closingLine,
          { nEmbed := 1, nGenerate := 2 }) ∧
    (commentSections stubEnv stubState "def f(): pass" 1 ["ok"]).length = 1 :=
  ⟨by decide, by decide,
    (report_structure_matches_comments stubEnv stubState "def f(): pass" ["ok"]
      { nEmbed := 0, nGenerate := 0 } (by decide) (by decide)).1,
    (report_structure_matches_comments stubEnv stubState "def f(): pass" ["ok"]
      { nEmbed := 0, nGenerate := 0 } (by decide) (by decide)).2⟩

/-! ### C9: two-run determinism of the pipeline -/

/-- C9: the report text produced by `process_review` does not depend on the
incoming trace — the only state the pipeline threads between runs (the RAG
state is read-only and the providers are fixed deterministic functions).
Hence running the pipeline twice on identical input, the second run starting
from whatever trace the first left behind, produces byte-identical output
documents. -/
theorem process_review_two_runs_identical (env : Env) (st : RAGState)
    (input : ReviewInput) (t1 t2 : Trace) :
    Option.map Prod.fst (processReviewT env st input t1)
      = Option.map Prod.fst (processReviewT env st input t2) := by
  obtain ⟨code, comments⟩ := input
  by_cases h : code = "" ∨ comments = []
  · unfold processReviewT
    rw [if_pos h, if_pos h]
    rfl
  · push_neg at h
    obtain ⟨hc, hm⟩ := h
    unfold processReviewT
    rw [if_neg (by simp [hc, hm]), if_neg (by simp [hc, hm])]
    obtain ⟨fb1, h1⟩ := reviewLoop_spec env st code comments 1 (reportHeader code) [] t1
    obtain ⟨fb2, h2⟩ := reviewLoop_spec env st code comments 1 (reportHeader code) [] t2
    rw [h1, h2]
    rfl
